import Mathlib

/-!
Verification of the stock price viewer (`finally.py`).

Shallow embedding conventions:
* A calendar date is a `Nat`: the number of days since a fixed Monday
  epoch, so that `d % 7` is the Python `date.weekday()` value (0 = Monday, ...,
  6 = Sunday) and `d % 7 < 5` means "business day".
* Closing prices are exact rationals `ℚ`, the idealised semantics of the
  double-precision arithmetic used by numpy.
* A pandas `DataFrame` with a date index and a `Close` column is a
  `List (Nat × ℚ)` of `(date, close)` pairs.
* The external market-data provider (yfinance) is modelled by passing
  the raw upstream history and the `info` name field as inputs.
* A Python exception is modelled as `none`: fallible computations return
  `Option`, and `none` propagates like an uncaught exception.
-/

namespace StockViewer

/-- The smallest business day (weekday < 5) on or after `d`.  This is how
pandas `date_range(start, periods, freq=B)` anchors its start: `d` itself
when `d` is a weekday, otherwise the following Monday. -/
def nextBDayGE (d : Nat) : Nat :=
  if d % 7 < 5 then d else d + (7 - d % 7)

/-- `pd.date_range(start, periods=n, freq=B)`: the first `n` consecutive
business days starting at the first business day on or after `start`. -/
def bdateRange (start : Nat) : Nat → List Nat
  | 0 => []
  | n + 1 =>
    let f := nextBDayGE start
    f :: bdateRange (f + 1) n

/-- `np.polyfit(np.arange(len(y)), y, 1)`: least-squares degree-1 fit of the
samples `y i` at integer positions `i = 0 .. n-1`, returned as
`some (slope, intercept)`.  For two or more samples the normal-equations
solution is the unique least-squares line.  With fewer than two samples
`np.polyfit` raises: it scales the Vandermonde columns by their L2 norms
before calling `lstsq`, and for `x = [0]` the x-column has zero norm, so the
scaled matrix is NaN and `np.linalg.lstsq` raises `LinAlgError` (an empty
`y` raises `TypeError` even earlier).  The determinant `d` of the normal
equations vanishes exactly in those rank-deficient cases, so `d = 0` is the
error condition, modelled as `none`. -/
def polyfit1 (y : List ℚ) : Option (ℚ × ℚ) :=
  let n : ℚ := (y.length : ℚ)
  let e := y.enum
  let sx : ℚ := (e.map (fun p => (p.1 : ℚ))).sum
  let sxx : ℚ := (e.map (fun p => ((p.1 : ℚ)) ^ 2)).sum
  let sy : ℚ := y.sum
  let sxy : ℚ := (e.map (fun p => (p.1 : ℚ) * p.2)).sum
  let d : ℚ := n * sxx - sx ^ 2
  if d = 0 then none
  else some ((n * sxy - sx * sy) / d, (sy * sxx - sx * sxy) / d)

/-- `fetch_stock_data`: the provider history filtered to weekdays
(`data[data.index.weekday < 5]`).  `raw` is the upstream response for the
requested symbol/period/interval. -/
def fetch_stock_data (raw : List (Nat × ℚ)) : List (Nat × ℚ) :=
  raw.filter (fun p => p.1 % 7 < 5)

/-- `fetch_company_name`: `stock.info.get` of the `longName` key with the
default `"Company Name Not Found"`.  `info` is the provider `longName`
field, absent or present. -/
def fetch_company_name (info : Option String) : String :=
  info.getD "Company Name Not Found"

/-- `simulate_future_prices(data, days)`: fit a degree-1 polynomial to the
closes at positions `0 .. n-1`, evaluate it at positions `n .. n+days-1`
(`poly(np.arange(len(data), len(data) + days))`), and attach the `days`
business days generated from the day after the last historical date
(`pd.date_range(data.index[-1] + timedelta(days=1), periods=days, freq=B)`).
When `np.polyfit` raises (fewer than two rows) the exception propagates:
the result is `none`. -/
def simulate_future_prices (data : List (Nat × ℚ)) (days : Nat) : Option (List (Nat × ℚ)) :=
  (polyfit1 (data.map Prod.snd)).map fun coef =>
    let futureDates := bdateRange (((data.map Prod.fst).getLast?).getD 0 + 1) days
    let futurePrices := (List.range days).map fun k =>
      coef.1 * ((data.length + k : Nat) : ℚ) + coef.2
    futureDates.zip futurePrices

/-- A plotly figure, reduced to what the callback puts in it: nothing
(`go.Figure()`), a `go.Scatter` line trace, or a `go.Bar` trace, each
carrying its `(x, y)` points. -/
inductive Figure where
  | empty : Figure
  | scatter (pts : List (Nat × ℚ)) : Figure
  | bar (pts : List (Nat × ℚ)) : Figure
deriving DecidableEq

/-- The data points a figure renders. -/
def Figure.points : Figure → List (Nat × ℚ)
  | Figure.empty => []
  | Figure.scatter pts => pts
  | Figure.bar pts => pts

/-- The Python f-string `:.2f` formatting of a price: the value rounded to
two decimal places, printed with exactly two digits after the point. -/
def fmt2 (q : ℚ) : String :=
  let c : Int := round (q * 100)
  let s := if c < 0 then "-" else ""
  let a := c.natAbs
  s ++ toString (a / 100) ++ "." ++ (if a % 100 < 10 then "0" else "") ++ toString (a % 100)

/-- The `update_graph` callback.  Inputs are the `n_clicks` count of the
button, the three dropdown values, and the `hoverData` of the graph (the
`x` string and `y` value of the first hovered point, `none` when no hover
has occurred); the provider is modelled by `raw` (upstream history for the
symbol/period) and `info` (the `longName` field).  The output is
`some (figure, company text, price text)` when the callback returns, and
`none` when it raises — which happens exactly when `simulate_future_prices`
raises inside the data-available branch. -/
def update_graph (n_clicks : Nat) (symbol period graph_type : String)
    (hoverData : Option (String × ℚ)) (raw : List (Nat × ℚ)) (info : Option String) :
    Option (Figure × String × String) :=
  if n_clicks = 0 then
    some (Figure.empty, "Please click \x27Update\x27 to fetch data", "Price: Not Available")
  else
    let data := fetch_stock_data raw
    let company_name := fetch_company_name info
    if data = [] then
      some (Figure.empty, "Error: No data available", "Price: Not Available")
    else
      (simulate_future_prices data 5).map fun future_data =>
        let combined_data := data ++ future_data
        let fig := if graph_type = "line" then Figure.scatter combined_data
                   else Figure.bar combined_data
        let last_price := ((data.map Prod.snd).getLast?).getD 0
        let base_label := "Last Price for " ++ symbol ++ ": $" ++ fmt2 last_price
        let price_label := match hoverData with
          | some pt => "Price on " ++ pt.1 ++ ": $" ++ fmt2 pt.2
          | none => base_label
        (fig, "Company: " ++ company_name, price_label)

/-! ### Helper lemmas about business-day ranges -/

theorem le_nextBDayGE (d : Nat) : d ≤ nextBDayGE d := by
  unfold nextBDayGE
  split
  · exact le_refl d
  · exact Nat.le_add_right d _

theorem nextBDayGE_isBDay (d : Nat) : nextBDayGE d % 7 < 5 := by
  unfold nextBDayGE
  split
  · assumption
  · omega

theorem bdateRange_length (start n : Nat) : (bdateRange start n).length = n := by
  induction n generalizing start with
  | zero => rfl
  | succ n ih => simp [bdateRange, ih]

theorem bdateRange_mem_ge {start n d : Nat} (h : d ∈ bdateRange start n) : start ≤ d := by
  induction n generalizing start with
  | zero => simp [bdateRange] at h
  | succ n ih =>
    simp only [bdateRange, List.mem_cons] at h
    rcases h with h | h
    · exact h ▸ le_nextBDayGE start
    · have := ih h
      have := le_nextBDayGE start
      omega

theorem bdateRange_mem_isBDay {start n d : Nat} (h : d ∈ bdateRange start n) : d % 7 < 5 := by
  induction n generalizing start with
  | zero => simp [bdateRange] at h
  | succ n ih =>
    simp only [bdateRange, List.mem_cons] at h
    rcases h with h | h
    · exact h ▸ nextBDayGE_isBDay start
    · exact ih h

theorem bdateRange_head (start n : Nat) :
    (bdateRange start (n + 1)).head? = some (nextBDayGE start) := by
  rfl

theorem bdateRange_chain (start n : Nat) :
    List.Chain' (fun a b => b = nextBDayGE (a + 1)) (bdateRange start n) := by
  induction n generalizing start with
  | zero => exact List.chain'_nil
  | succ n ih =>
    rw [bdateRange, List.chain'_cons']
    refine ⟨?_, ih _⟩
    intro b hb
    cases n with
    | zero => simp [bdateRange] at hb
    | succ m =>
      rw [bdateRange_head] at hb
      simp at hb
      exact hb.symm

/-- In a strictly increasing list every element is at most the last one. -/
theorem chain_lt_le_getLastD {l : List Nat} (h : List.Chain' (· < ·) l) :
    ∀ d ∈ l, d ≤ l.getLast?.getD 0 := by
  induction l with
  | nil => intro d hd; simp at hd
  | cons a t ih =>
    intro d hd
    cases t with
    | nil => simp at hd; simp [hd]
    | cons b t' =>
      rw [List.chain'_cons] at h
      have hb : b ≤ (b :: t').getLast?.getD 0 := ih h.2 b (List.mem_cons_self b t')
      have hlast : (a :: b :: t').getLast?.getD 0 = (b :: t').getLast?.getD 0 := by
        simp [List.getLast?]
      rcases List.mem_cons.mp hd with rfl | hd'
      · rw [hlast]; exact le_of_lt (lt_of_lt_of_le h.1 hb)
      · rw [hlast]; exact ih h.2 d hd'

/-! ### Helper lemmas about the least-squares fit -/

theorem sum_range_cast (n : Nat) :
    ((List.range n).map (fun i : Nat => (i : ℚ))).sum = (n : ℚ) * ((n : ℚ) - 1) / 2 := by
  induction n with
  | zero => simp
  | succ n ih =>
    rw [List.range_succ, List.map_append, List.sum_append, ih]
    simp only [List.map_cons, List.map_nil, List.sum_cons, List.sum_nil]
    push_cast
    ring

theorem sum_range_sq_cast (n : Nat) :
    ((List.range n).map (fun i : Nat => ((i : ℚ)) ^ 2)).sum =
      (n : ℚ) * ((n : ℚ) - 1) * (2 * (n : ℚ) - 1) / 6 := by
  induction n with
  | zero => simp
  | succ n ih =>
    rw [List.range_succ, List.map_append, List.sum_append, ih]
    simp only [List.map_cons, List.map_nil, List.sum_cons, List.sum_nil]
    push_cast
    ring

theorem enum_cast_fst (y : List ℚ) :
    y.enum.map (fun p => (p.1 : ℚ)) = (List.range y.length).map (fun i : Nat => (i : ℚ)) := by
  rw [show (fun p : Nat × ℚ => (p.1 : ℚ)) = (fun i : Nat => (i : ℚ)) ∘ Prod.fst from rfl,
    ← List.map_map, List.enum_map_fst]

theorem enum_cast_fst_sq (y : List ℚ) :
    y.enum.map (fun p => ((p.1 : ℚ)) ^ 2) =
      (List.range y.length).map (fun i : Nat => ((i : ℚ)) ^ 2) := by
  rw [show (fun p : Nat × ℚ => ((p.1 : ℚ)) ^ 2) = (fun i : Nat => ((i : ℚ)) ^ 2) ∘ Prod.fst
      from rfl,
    ← List.map_map, List.enum_map_fst]

/-- With at least two samples the normal-equations determinant
`n·Σi² − (Σi)² = n²(n−1)(n+1)/12` is positive, so the fit succeeds. -/
theorem polyfit1_some_of_two_le {y : List ℚ} (h : 2 ≤ y.length) :
    ∃ c, polyfit1 y = some c := by
  have hn2 : (2 : ℚ) ≤ (y.length : ℚ) := by exact_mod_cast h
  have hd : (y.length : ℚ) *
        (((y.length : ℚ)) * ((y.length : ℚ) - 1) * (2 * (y.length : ℚ) - 1) / 6) -
        ((y.length : ℚ) * ((y.length : ℚ) - 1) / 2) ^ 2 ≠ 0 := by
    have hfact : (y.length : ℚ) *
          (((y.length : ℚ)) * ((y.length : ℚ) - 1) * (2 * (y.length : ℚ) - 1) / 6) -
          ((y.length : ℚ) * ((y.length : ℚ) - 1) / 2) ^ 2 =
        ((y.length : ℚ)) ^ 2 * ((y.length : ℚ) - 1) * ((y.length : ℚ) + 1) / 12 := by
      ring
    rw [hfact]
    have h0 : (0 : ℚ) < (y.length : ℚ) := by linarith
    have h1 : (0 : ℚ) < (y.length : ℚ) - 1 := by linarith
    have h2 : (0 : ℚ) < (y.length : ℚ) + 1 := by linarith
    have hpos : (0 : ℚ) <
        ((y.length : ℚ)) ^ 2 * ((y.length : ℚ) - 1) * ((y.length : ℚ) + 1) / 12 := by
      apply div_pos
      · exact mul_pos (mul_pos (pow_pos h0 2) h1) h2
      · norm_num
    exact ne_of_gt hpos
  apply Option.ne_none_iff_exists'.mp
  simp only [polyfit1, enum_cast_fst, enum_cast_fst_sq, sum_range_cast, sum_range_sq_cast,
    if_neg hd]
  simp

/-- Successful projections are the business-day range zipped with the
evaluated line. -/
theorem simulate_eq_zip (days : Nat) {data : List (Nat × ℚ)} {c : ℚ × ℚ}
    (hc : polyfit1 (data.map Prod.snd) = some c) :
    simulate_future_prices data days =
      some ((bdateRange (((data.map Prod.fst).getLast?).getD 0 + 1) days).zip
        ((List.range days).map fun k => c.1 * ((data.length + k : Nat) : ℚ) + c.2)) := by
  simp [simulate_future_prices, hc]

theorem polyfit1_single_none (y0 : ℚ) : polyfit1 [y0] = none := by
  simp [polyfit1, List.enum, List.enumFrom]

theorem polyfit1_nil_none : polyfit1 [] = none := by
  simp [polyfit1]

theorem simulate_singleton_none (p : Nat × ℚ) (days : Nat) :
    simulate_future_prices [p] days = none := by
  simp [simulate_future_prices, polyfit1_single_none]

theorem simulate_some_length {data : List (Nat × ℚ)} {days : Nat} {fut : List (Nat × ℚ)}
    (h : simulate_future_prices data days = some fut) : fut.length = days := by
  cases hp : polyfit1 (data.map Prod.snd) with
  | none => simp [simulate_future_prices, hp] at h
  | some c =>
    rw [simulate_eq_zip days hp, Option.some_inj] at h
    rw [← h, List.length_zip, bdateRange_length]
    simp

/-- Shape of the callback output after a click on a non-empty series whose
projection succeeds. -/
theorem update_graph_clicked_some (n_clicks : Nat) (symbol period graph_type : String)
    (hoverData : Option (String × ℚ)) (raw : List (Nat × ℚ)) (info : Option String)
    (fut : List (Nat × ℚ))
    (hn : 0 < n_clicks) (hne : fetch_stock_data raw ≠ [])
    (hsim : simulate_future_prices (fetch_stock_data raw) 5 = some fut) :
    update_graph n_clicks symbol period graph_type hoverData raw info =
      some ((if graph_type = "line" then
          Figure.scatter (fetch_stock_data raw ++ fut)
        else
          Figure.bar (fetch_stock_data raw ++ fut)),
        "Company: " ++ fetch_company_name info,
        match hoverData with
        | some pt => "Price on " ++ pt.1 ++ ": $" ++ fmt2 pt.2
        | none => "Last Price for " ++ symbol ++ ": $" ++
            fmt2 ((((fetch_stock_data raw).map Prod.snd).getLast?).getD 0)) := by
  have hn0 : ¬ n_clicks = 0 := by omega
  simp only [update_graph, if_neg hn0, if_neg hne, hsim, Option.map_some']

/-! ### Claim theorems -/

/-- C1 counterexample: at the non-empty one-point series `[(0, 10)]` and
horizon 1 the projection returns no points at all — `np.polyfit` raises on
a single sample — refuting the claim that every non-empty series yields
exactly `horizonDays` projected points. -/
theorem simulate_singleton_no_points :
    simulate_future_prices [((0 : Nat), (10 : ℚ))] 1 = none :=
  simulate_singleton_none ((0 : Nat), (10 : ℚ)) 1

/-- C1 (amended): for every series with at least two points, strictly
increasing dates, and a horizon of at least one day, the projection
succeeds and returns exactly `days` points, each date strictly after the
last historical date, the dates consecutive business days (each a weekday
and each successor the next business day after its predecessor), and no
projection date equal to any historical date. -/
theorem simulate_future_prices_spec (data : List (Nat × ℚ)) (days : Nat)
    (hlen : 2 ≤ data.length) (hsorted : List.Chain' (· < ·) (data.map Prod.fst))
    (hdays : 1 ≤ days) :
    ∃ proj, simulate_future_prices data days = some proj ∧
      proj.length = days ∧
      (∀ q ∈ proj, ((data.map Prod.fst).getLast?).getD 0 < q.1) ∧
      List.Chain' (fun a b => b = nextBDayGE (a + 1)) (proj.map Prod.fst) ∧
      (∀ q ∈ proj, q.1 % 7 < 5) ∧
      (∀ p ∈ data, ∀ q ∈ proj, p.1 ≠ q.1) := by
  have hy : 2 ≤ (data.map Prod.snd).length := by simpa using hlen
  obtain ⟨c, hc⟩ := polyfit1_some_of_two_le hy
  have hsim := simulate_eq_zip days hc
  refine ⟨_, hsim, ?_, ?_, ?_, ?_, ?_⟩
  · rw [List.length_zip, bdateRange_length]
    simp
  · intro q hq
    have := bdateRange_mem_ge (List.of_mem_zip hq).1
    omega
  · rw [List.map_fst_zip _ _ (by rw [bdateRange_length]; simp)]
    exact bdateRange_chain _ _
  · intro q hq
    exact bdateRange_mem_isBDay (List.of_mem_zip hq).1
  · intro p hp q hq
    have hple : p.1 ≤ ((data.map Prod.fst).getLast?).getD 0 :=
      chain_lt_le_getLastD hsorted p.1 (List.mem_map_of_mem Prod.fst hp)
    have := bdateRange_mem_ge (List.of_mem_zip hq).1
    omega

/-- Witness for C1 at a concrete input: the two-point series
`[(0, 10), (1, 12)]` with a one-day horizon. -/
theorem simulate_future_prices_spec_witness :
    (2 ≤ [((0 : Nat), (10 : ℚ)), ((1 : Nat), (12 : ℚ))].length ∧
      List.Chain' (· < ·)
        ([((0 : Nat), (10 : ℚ)), ((1 : Nat), (12 : ℚ))].map Prod.fst) ∧ 1 ≤ 1) ∧
    (∃ proj,
      simulate_future_prices [((0 : Nat), (10 : ℚ)), ((1 : Nat), (12 : ℚ))] 1 = some proj ∧
      proj.length = 1 ∧
      (∀ q ∈ proj,
        (([((0 : Nat), (10 : ℚ)), ((1 : Nat), (12 : ℚ))].map Prod.fst).getLast?).getD 0 <
          q.1) ∧
      List.Chain' (fun a b => b = nextBDayGE (a + 1)) (proj.map Prod.fst) ∧
      (∀ q ∈ proj, q.1 % 7 < 5) ∧
      (∀ p ∈ [((0 : Nat), (10 : ℚ)), ((1 : Nat), (12 : ℚ))], ∀ q ∈ proj, p.1 ≠ q.1)) :=
  ⟨⟨by simp, by simp, le_refl 1⟩,
    simulate_future_prices_spec [((0 : Nat), (10 : ℚ)), ((1 : Nat), (12 : ℚ))] 1
      (by simp) (by simp) (le_refl 1)⟩

/-- C2: on closes `[10, 12, 14]` at positions `0, 1, 2` the least-squares
degree-1 fit is the line `y = 2x + 10`, and a 2-day projection evaluates it
at positions 3 and 4, giving exactly 16 and 18. -/
theorem polyfit_linear_example :
    polyfit1 [10, 12, 14] = some (2, 10) ∧
    (simulate_future_prices [(0, 10), (1, 12), (2, 14)] 2).map (List.map Prod.snd) =
      some [16, 18] := by
  constructor
  · norm_num [polyfit1, List.enum, List.enumFrom]
  · norm_num [simulate_future_prices, polyfit1, bdateRange, nextBDayGE,
      List.enum, List.enumFrom, List.range_succ]

/-- C4 counterexample: at the single point `(0, 10)` the fit is not the
zero-slope line through the point — `np.polyfit` raises, so there is no
fit value at all. -/
theorem polyfit1_single_point_fails :
    polyfit1 [(10 : ℚ)] = none ∧ polyfit1 [(10 : ℚ)] ≠ some (0, 10) := by
  have h := polyfit1_single_none 10
  refine ⟨h, ?_⟩
  rw [h]
  simp

/-- C4 (amended): for every series with fewer than 2 points the degree-1
fit is an error, not a degenerate value: `np.polyfit` raises (`LinAlgError`
from the zero-norm, NaN-scaled Vandermonde column for one sample;
`TypeError` for an empty vector), so the projection produces no points. -/
theorem simulate_degenerate_raises (data : List (Nat × ℚ)) (days : Nat)
    (h : data.length < 2) :
    polyfit1 (data.map Prod.snd) = none ∧ simulate_future_prices data days = none := by
  match data with
  | [] =>
    exact ⟨polyfit1_nil_none, by simp [simulate_future_prices, polyfit1_nil_none]⟩
  | [p] =>
    exact ⟨polyfit1_single_none p.2, simulate_singleton_none p days⟩
  | a :: b :: t =>
    simp [List.length_cons] at h
    omega

/-- Witness for C4: the one-point series `[(0, 10)]` with a 2-day horizon. -/
theorem simulate_degenerate_raises_witness :
    [((0 : Nat), (10 : ℚ))].length < 2 ∧
    (polyfit1 ([((0 : Nat), (10 : ℚ))].map Prod.snd) = none ∧
      simulate_future_prices [((0 : Nat), (10 : ℚ))] 2 = none) :=
  ⟨by simp, simulate_degenerate_raises [((0 : Nat), (10 : ℚ))] 2 (by simp)⟩

/-- C5: with `n_clicks = 0` the callback returns the prompt-to-refresh
state — empty figure, prompt text, `Price: Not Available` — for every
symbol, period, graph type and hover input, and the output does not depend
on the provider data `raw` or `info` at all (no fetch is observable before
the first refresh). -/
theorem update_graph_unclicked (symbol period graph_type : String)
    (hoverData : Option (String × ℚ)) (raw : List (Nat × ℚ)) (info : Option String) :
    update_graph 0 symbol period graph_type hoverData raw info =
      some (Figure.empty, "Please click \x27Update\x27 to fetch data",
        "Price: Not Available") := by
  rfl

/-- C8: `fetch_company_name` always returns a string — the provider
`longName` when present and the fixed placeholder when the field is
missing — and never propagates a failure. -/
theorem fetch_company_name_total :
    fetch_company_name none = "Company Name Not Found" ∧
    ∀ s : String, fetch_company_name (some s) = s :=
  ⟨rfl, fun _ => rfl⟩

/-- C3: after a refresh click, if the fetched series is empty the callback
returns the no-data display state — empty figure, error message,
`Price: Not Available` — computing no projection and raising no
exception, for every symbol, period, graph type and hover input. -/
theorem update_graph_no_data (n_clicks : Nat) (symbol period graph_type : String)
    (hoverData : Option (String × ℚ)) (raw : List (Nat × ℚ)) (info : Option String)
    (hn : 0 < n_clicks) (hempty : fetch_stock_data raw = []) :
    update_graph n_clicks symbol period graph_type hoverData raw info =
      some (Figure.empty, "Error: No data available", "Price: Not Available") := by
  have hn0 : ¬ n_clicks = 0 := by omega
  simp only [update_graph, if_neg hn0, hempty]
  rfl

/-- Witness for C3: one click, provider returns nothing. -/
theorem update_graph_no_data_witness :
    ((0 : Nat) < 1 ∧ fetch_stock_data [] = []) ∧
    update_graph 1 "AAPL" "1mo" "line" none [] none =
      some (Figure.empty, "Error: No data available", "Price: Not Available") :=
  ⟨⟨by decide, rfl⟩,
    update_graph_no_data 1 "AAPL" "1mo" "line" none [] none (by decide) rfl⟩

/-- C6 counterexample: at the reachable one-row fetched series (period 1d)
the callback raises inside `simulate_future_prices` before any price label
exists, refuting the claim for every non-empty series. -/
theorem update_graph_singleton_no_label :
    update_graph 1 "AAPL" "1d" "line" none [((0 : Nat), (10 : ℚ))] none = none := by
  have h1 : fetch_stock_data [((0 : Nat), (10 : ℚ))] = [((0 : Nat), (10 : ℚ))] := rfl
  have h2 : simulate_future_prices [((0 : Nat), (10 : ℚ))] 5 = none :=
    simulate_singleton_none _ _
  simp [update_graph, h1, h2]

/-- C6 (amended): after a refresh click on a fetched series of at least two
points the callback returns an output; with no hover its price label shows
the last historical close (the last element of the fetched series, not a
projected value), and with a hover it shows the value and date of the
hovered point, for any hovered point whatsoever (historical or projected
alike). -/
theorem update_graph_price_label (n_clicks : Nat) (symbol period graph_type : String)
    (raw : List (Nat × ℚ)) (info : Option String)
    (hn : 0 < n_clicks) (hlen : 2 ≤ (fetch_stock_data raw).length) :
    (∃ out, update_graph n_clicks symbol period graph_type none raw info = some out ∧
      out.2.2 = "Last Price for " ++ symbol ++ ": $" ++
        fmt2 ((((fetch_stock_data raw).map Prod.snd).getLast?).getD 0)) ∧
    ∀ (x : String) (p : ℚ),
      ∃ out, update_graph n_clicks symbol period graph_type (some (x, p)) raw info =
        some out ∧
        out.2.2 = "Price on " ++ x ++ ": $" ++ fmt2 p := by
  have hne : fetch_stock_data raw ≠ [] := by
    intro hcon
    rw [hcon] at hlen
    simp at hlen
  have hy : 2 ≤ ((fetch_stock_data raw).map Prod.snd).length := by simpa using hlen
  obtain ⟨c, hc⟩ := polyfit1_some_of_two_le hy
  have hsim := simulate_eq_zip 5 hc
  constructor
  · exact ⟨_, update_graph_clicked_some n_clicks symbol period graph_type none raw info _
      hn hne hsim, rfl⟩
  · intro x p
    exact ⟨_, update_graph_clicked_some n_clicks symbol period graph_type (some (x, p))
      raw info _ hn hne hsim, rfl⟩

/-- Witness for C6: one click on the two-point series `[(0, 10), (1, 12)]`. -/
theorem update_graph_price_label_witness :
    ((0 : Nat) < 1 ∧
      2 ≤ (fetch_stock_data [((0 : Nat), (10 : ℚ)), ((1 : Nat), (12 : ℚ))]).length) ∧
    ((∃ out, update_graph 1 "AAPL" "1mo" "line" none
        [((0 : Nat), (10 : ℚ)), ((1 : Nat), (12 : ℚ))] none = some out ∧
      out.2.2 = "Last Price for " ++ "AAPL" ++ ": $" ++
        fmt2 ((((fetch_stock_data
          [((0 : Nat), (10 : ℚ)), ((1 : Nat), (12 : ℚ))]).map Prod.snd).getLast?).getD 0)) ∧
    ∀ (x : String) (p : ℚ),
      ∃ out, update_graph 1 "AAPL" "1mo" "line" (some (x, p))
          [((0 : Nat), (10 : ℚ)), ((1 : Nat), (12 : ℚ))] none = some out ∧
        out.2.2 = "Price on " ++ x ++ ": $" ++ fmt2 p) :=
  ⟨⟨by decide, by decide⟩,
    update_graph_price_label 1 "AAPL" "1mo" "line"
      [((0 : Nat), (10 : ℚ)), ((1 : Nat), (12 : ℚ))] none (by decide) (by decide)⟩

/-- C7: every date in the series returned by `fetch_stock_data` is a
business day (weekday index in `{0, 1, 2, 3, 4}`), whatever the upstream
response. -/
theorem fetch_stock_data_bdays (raw : List (Nat × ℚ)) :
    ∀ p ∈ fetch_stock_data raw, p.1 % 7 < 5 := by
  intro p hp
  rw [fetch_stock_data, List.mem_filter] at hp
  simpa using hp.2

/-- Witness for C7: the Monday point `(0, 10)` survives the filter and its
weekday is below 5. -/
theorem fetch_stock_data_bdays_witness :
    ((0 : Nat), (10 : ℚ)) ∈ fetch_stock_data [((0 : Nat), (10 : ℚ))] ∧
    ((0 : Nat), (10 : ℚ)).1 % 7 < 5 :=
  ⟨by decide, fetch_stock_data_bdays [((0 : Nat), (10 : ℚ))] ((0 : Nat), (10 : ℚ)) (by decide)⟩

/-- C9 counterexample: at the reachable one-row fetched series (period 1d)
the callback raises in `np.polyfit` and renders nothing, so no
`len(historical) + 5` series exists, refuting the claim for every
non-empty series. -/
theorem update_graph_singleton_no_chart :
    update_graph 1 "GOOGL" "1d" "line" none [((0 : Nat), (11 : ℚ))] none = none := by
  have h1 : fetch_stock_data [((0 : Nat), (11 : ℚ))] = [((0 : Nat), (11 : ℚ))] := rfl
  have h2 : simulate_future_prices [((0 : Nat), (11 : ℚ))] 5 = none :=
    simulate_singleton_none _ _
  simp [update_graph, h1, h2]

/-- C9 (amended): after a refresh click on a fetched series of at least two
points the callback returns an output and always appends a projection of
exactly 5 business days — the horizon is the literal `days=5` in the call,
selectable by no input of the callback — so the rendered series has length
`len(historical) + 5`. -/
theorem update_graph_fixed_horizon (n_clicks : Nat) (symbol period graph_type : String)
    (hoverData : Option (String × ℚ)) (raw : List (Nat × ℚ)) (info : Option String)
    (hn : 0 < n_clicks) (hlen : 2 ≤ (fetch_stock_data raw).length) :
    ∃ out, update_graph n_clicks symbol period graph_type hoverData raw info = some out ∧
      out.1.points.length = (fetch_stock_data raw).length + 5 := by
  have hne : fetch_stock_data raw ≠ [] := by
    intro hcon
    rw [hcon] at hlen
    simp at hlen
  have hy : 2 ≤ ((fetch_stock_data raw).map Prod.snd).length := by simpa using hlen
  obtain ⟨c, hc⟩ := polyfit1_some_of_two_le hy
  have hsim := simulate_eq_zip 5 hc
  have hfutlen := simulate_some_length hsim
  refine ⟨_, update_graph_clicked_some n_clicks symbol period graph_type hoverData raw
    info _ hn hne hsim, ?_⟩
  by_cases hg : graph_type = "line" <;>
    simp [hg, Figure.points, List.length_append, hfutlen, bdateRange_length]

/-- Witness for C9: one click on the two-point series `[(0, 10), (1, 12)]`
renders `2 + 5` points. -/
theorem update_graph_fixed_horizon_witness :
    ((0 : Nat) < 1 ∧
      2 ≤ (fetch_stock_data [((0 : Nat), (10 : ℚ)), ((1 : Nat), (12 : ℚ))]).length) ∧
    (∃ out, update_graph 1 "AAPL" "1mo" "line" none
        [((0 : Nat), (10 : ℚ)), ((1 : Nat), (12 : ℚ))] none = some out ∧
      out.1.points.length =
        (fetch_stock_data [((0 : Nat), (10 : ℚ)), ((1 : Nat), (12 : ℚ))]).length + 5) :=
  ⟨⟨by decide, by decide⟩,
    update_graph_fixed_horizon 1 "AAPL" "1mo" "line" none
      [((0 : Nat), (10 : ℚ)), ((1 : Nat), (12 : ℚ))] none (by decide) (by decide)⟩

/-- C10 counterexample: at the reachable one-row fetched series (period 1d)
the callback raises before `pd.concat` and renders nothing, refuting the
claim for every non-empty series. -/
theorem update_graph_singleton_no_render :
    update_graph 1 "MSFT" "1d" "bar" none [((0 : Nat), (12 : ℚ))] none = none := by
  have h1 : fetch_stock_data [((0 : Nat), (12 : ℚ))] = [((0 : Nat), (12 : ℚ))] := rfl
  have h2 : simulate_future_prices [((0 : Nat), (12 : ℚ))] 5 = none :=
    simulate_singleton_none _ _
  simp [update_graph, h1, h2]

/-- C10 (amended): for a fetched series of at least two points, computing
and appending the projection leaves the historical data unchanged: the
rendered points are exactly the fetched series followed by the projection
(the pure `simulate_future_prices` builds a fresh frame and does not modify
its input), so the first `len(data)` rendered points are exactly the
fetched series. -/
theorem update_graph_preserves_history (n_clicks : Nat) (symbol period graph_type : String)
    (hoverData : Option (String × ℚ)) (raw : List (Nat × ℚ)) (info : Option String)
    (hn : 0 < n_clicks) (hlen : 2 ≤ (fetch_stock_data raw).length) :
    ∃ fut out, simulate_future_prices (fetch_stock_data raw) 5 = some fut ∧
      update_graph n_clicks symbol period graph_type hoverData raw info = some out ∧
      out.1.points = fetch_stock_data raw ++ fut ∧
      out.1.points.take (fetch_stock_data raw).length = fetch_stock_data raw := by
  have hne : fetch_stock_data raw ≠ [] := by
    intro hcon
    rw [hcon] at hlen
    simp at hlen
  have hy : 2 ≤ ((fetch_stock_data raw).map Prod.snd).length := by simpa using hlen
  obtain ⟨c, hc⟩ := polyfit1_some_of_two_le hy
  have hsim := simulate_eq_zip 5 hc
  refine ⟨_, _, hsim, update_graph_clicked_some n_clicks symbol period graph_type
    hoverData raw info _ hn hne hsim, ?_, ?_⟩
  · by_cases hg : graph_type = "line" <;> simp [hg, Figure.points]
  · by_cases hg : graph_type = "line" <;> simp [hg, Figure.points, List.take_left]

/-- Witness for C10: one click on the two-point series `[(0, 10), (1, 12)]`. -/
theorem update_graph_preserves_history_witness :
    ((0 : Nat) < 1 ∧
      2 ≤ (fetch_stock_data [((0 : Nat), (10 : ℚ)), ((1 : Nat), (12 : ℚ))]).length) ∧
    (∃ fut out,
      simulate_future_prices
          (fetch_stock_data [((0 : Nat), (10 : ℚ)), ((1 : Nat), (12 : ℚ))]) 5 = some fut ∧
      update_graph 1 "AAPL" "1mo" "line" none
          [((0 : Nat), (10 : ℚ)), ((1 : Nat), (12 : ℚ))] none = some out ∧
      out.1.points =
        fetch_stock_data [((0 : Nat), (10 : ℚ)), ((1 : Nat), (12 : ℚ))] ++ fut ∧
      out.1.points.take
          (fetch_stock_data [((0 : Nat), (10 : ℚ)), ((1 : Nat), (12 : ℚ))]).length =
        fetch_stock_data [((0 : Nat), (10 : ℚ)), ((1 : Nat), (12 : ℚ))]) :=
  ⟨⟨by decide, by decide⟩,
    update_graph_preserves_history 1 "AAPL" "1mo" "line" none
      [((0 : Nat), (10 : ℚ)), ((1 : Nat), (12 : ℚ))] none (by decide) (by decide)⟩

end StockViewer
